import Mathlib

/-!
Shallow embedding of the typed export conversion pipeline of
`src/lib/export.py` (GRR export converters), together with proofs of the
behavioural claims about it.

Conventions of the embedding:
* Python generators that yield outputs and may raise `NoConverterFound` at the
  end are modelled by the pair `List O × Option String`: the list holds the
  values yielded to the consumer, the option holds the message of the error
  raised after (or in the middle of) the yields, `none` when iteration
  finishes normally.
* The process-wide converter registry (`ExportConverter.classes` +
  `GetConvertersByValue`, which is keyed by the runtime class name of a
  value) is modelled as a function from the type-tag of a value to the list
  of converter instances already constructed with the caller's options.
* Effectful collaborators that live outside the excerpt (the AFF4 object
  store, the hash index) are modelled as explicit function parameters, as
  described at their interface boundary in the spec.
-/

namespace GrrExport

/-- A converter instance: what remains of an `ExportConverter` object once its
options are fixed — its `BatchConvert` method, a function from a batch of
(metadata, value) pairs to the list of values it yields. -/
structure Converter (M V O : Type) where
  batchConvert : List (M × V) → List O

section Grouping

variable {α : Type}

/-- Modelled from the spec: `utils.GroupBy` (grr.lib.utils, not under src/).
§4.3: partition a sequence by a key, preserving the relative order of the
elements inside every group, with the distinct keys in first-seen order.
`insertGrouped` adds one element to such a partition. -/
def insertGrouped (key : α → String) (x : α) :
    List (String × List α) → List (String × List α)
  | [] => [(key x, [x])]
  | g :: gs =>
      if key x = g.1 then (g.1, g.2 ++ [x]) :: gs
      else g :: insertGrouped key x gs

/-- Modelled from the spec: `utils.GroupBy` (grr.lib.utils, not under src/),
see `insertGrouped`. -/
def groupByKey (key : α → String) (l : List α) : List (String × List α) :=
  l.foldl (fun acc x => insertGrouped key x acc) []

/-- Well-formedness of a partition: groups are nonempty and every element of a
group has the group's key. -/
def GroupsWF (key : α → String) (gs : List (String × List α)) : Prop :=
  ∀ g ∈ gs, g.2 ≠ [] ∧ ∀ x ∈ g.2, key x = g.1

theorem insertGrouped_wf {key : α → String} {gs : List (String × List α)}
    (h : GroupsWF key gs) (x : α) : GroupsWF key (insertGrouped key x gs) := by
  induction gs with
  | nil =>
      intro g hg
      simp only [insertGrouped, List.mem_singleton] at hg
      subst hg
      exact ⟨by simp, by simp⟩
  | cons g0 gs ih =>
      have hg0 := h g0 (List.mem_cons_self _ _)
      have htail : GroupsWF key gs := fun g hg => h g (List.mem_cons_of_mem _ hg)
      intro g hg
      simp only [insertGrouped] at hg
      by_cases hk : key x = g0.1
      · rw [if_pos hk] at hg
        rcases List.mem_cons.1 hg with hg | hg
        · subst hg
          refine ⟨by simp, ?_⟩
          intro y hy
          rcases List.mem_append.1 hy with hy | hy
          · exact hg0.2 y hy
          · simp only [List.mem_singleton] at hy; subst hy; exact hk
        · exact htail g hg
      · rw [if_neg hk] at hg
        rcases List.mem_cons.1 hg with hg | hg
        · subst hg; exact hg0
        · exact ih htail g hg

theorem foldl_insertGrouped_wf {key : α → String} (l : List α)
    {acc : List (String × List α)} (hacc : GroupsWF key acc) :
    GroupsWF key (l.foldl (fun acc x => insertGrouped key x acc) acc) := by
  induction l generalizing acc with
  | nil => exact hacc
  | cons x xs ih => exact ih (insertGrouped_wf hacc x)

theorem groupByKey_wf (key : α → String) (l : List α) :
    GroupsWF key (groupByKey key l) :=
  foldl_insertGrouped_wf l (fun g hg => absurd hg (List.not_mem_nil g))

/-- Inserting an element preserves the multiset of grouped elements. -/
theorem insertGrouped_flatten_perm (key : α → String) (x : α)
    (gs : List (String × List α)) :
    ((insertGrouped key x gs).map Prod.snd).flatten.Perm
      (x :: (gs.map Prod.snd).flatten) := by
  induction gs with
  | nil => simp [insertGrouped]
  | cons g0 gs ih =>
      by_cases hk : key x = g0.1
      · simp only [insertGrouped, if_pos hk, List.map_cons, List.flatten_cons]
        rw [List.append_assoc]
        exact List.perm_append_comm_assoc g0.2 [x] _
      · simp only [insertGrouped, if_neg hk, List.map_cons, List.flatten_cons]
        exact (List.Perm.append_left g0.2 ih).trans
          (List.perm_append_comm_assoc g0.2 [x] _)

/-- Grouping a list only permutes it: flattening the groups gives back the
original elements. -/
theorem groupByKey_flatten_perm (key : α → String) (l : List α) :
    ((groupByKey key l).map Prod.snd).flatten.Perm l := by
  suffices h : ∀ (l : List α) (acc : List (String × List α)),
      ((l.foldl (fun acc x => insertGrouped key x acc) acc).map
          Prod.snd).flatten.Perm ((acc.map Prod.snd).flatten ++ l) by
    simpa using h l []
  intro l
  induction l with
  | nil => intro acc; simp
  | cons x xs ih =>
      intro acc
      exact ((ih _).trans
          ((insertGrouped_flatten_perm key x acc).append_right xs)).trans
        (List.perm_append_comm_assoc [x] (acc.map Prod.snd).flatten xs)

theorem groupByKey_mem {key : α → String} {l : List α}
    {g : String × List α} (hg : g ∈ groupByKey key l) {x : α} (hx : x ∈ g.2) :
    x ∈ l := by
  have hperm := groupByKey_flatten_perm key l
  exact hperm.mem_iff.1 (List.mem_flatten.2 ⟨g.2, List.mem_map_of_mem Prod.snd hg, hx⟩)

end Grouping

section Engine

variable {M V O : Type}

/-- The message format of `NoConverterFound` in `ConvertValuesWithMetadata`
(src/lib/export.py:855). -/
def noConvMsg (s : String) : String := "No converters found for value: " ++ s

/-- One type group's output: every converter's `BatchConvert` applied to the
whole group, results concatenated (src/lib/export.py:859-862). -/
def convertGroup (convs : List (Converter M V O)) (grp : List (M × V)) : List O :=
  (convs.map (fun c => c.batchConvert grp)).flatten

/-- The body of the loop of `ConvertValuesWithMetadata`
(src/lib/export.py:847-862): look up converters by the group's first value,
record a `NoConverterFound` message (overwriting any previous one) when there
are none, otherwise yield the group's conversion results. -/
def cvwmStep (registry : String → List (Converter M V O))
    (typeName valueStr : V → String)
    (acc : List O × Option String) (g : String × List (M × V)) :
    List O × Option String :=
  match g.2.head? with
  | none => acc
  | some p1 =>
      let convs := registry (typeName p1.2)
      if convs.isEmpty then (acc.1, some (noConvMsg (valueStr p1.2)))
      else (acc.1 ++ convertGroup convs g.2, acc.2)

/-- `ConvertValuesWithMetadata` (src/lib/export.py:823-865): group the input
pairs by the runtime type tag of the value, process every group, and raise
`NoConverterFound` at the very end when some group had no converters.  The
returned pair is (values yielded to the consumer, terminal error if any). -/
def ConvertValuesWithMetadata (registry : String → List (Converter M V O))
    (typeName valueStr : V → String) (pairs : List (M × V)) :
    List O × Option String :=
  (groupByKey (fun p => typeName p.2) pairs).foldl
    (cvwmStep registry typeName valueStr) ([], none)

/-- The error message produced for an unmatched group (uses the group's first
value, as the source does). -/
def groupMsg (valueStr : V → String) (g : String × List (M × V)) : String :=
  noConvMsg (match g.2.head? with
             | some p => valueStr p.2
             | none => "")

theorem cvwm_foldl_spec (registry : String → List (Converter M V O))
    (typeName valueStr : V → String) (gs : List (String × List (M × V)))
    (acc : List O × Option String)
    (hwf : GroupsWF (fun p => typeName p.2) gs) :
    gs.foldl (cvwmStep registry typeName valueStr) acc =
      (acc.1 ++ ((gs.filter (fun g => !(registry g.1).isEmpty)).map
          (fun g => convertGroup (registry g.1) g.2)).flatten,
       match (gs.filter (fun g => (registry g.1).isEmpty)).getLast? with
       | some g => some (groupMsg valueStr g)
       | none => acc.2) := by
  induction gs generalizing acc with
  | nil => simp
  | cons g gs ih =>
      obtain ⟨hne, hkey⟩ := hwf g (List.mem_cons_self _ _)
      have htail : GroupsWF (fun p => typeName p.2) gs :=
        fun g hg => hwf g (List.mem_cons_of_mem _ hg)
      obtain ⟨p1, rest, hg2⟩ : ∃ p1 rest, g.2 = p1 :: rest := by
        cases h : g.2 with
        | nil => exact absurd h hne
        | cons a l => exact ⟨a, l, rfl⟩
      have hreg : typeName p1.2 = g.1 := hkey p1 (by rw [hg2]; exact List.mem_cons_self _ _)
      have hstep : cvwmStep registry typeName valueStr acc g =
          (if (registry g.1).isEmpty then (acc.1, some (groupMsg valueStr g))
           else (acc.1 ++ convertGroup (registry g.1) g.2, acc.2)) := by
        simp only [cvwmStep, hg2, List.head?_cons, hreg, groupMsg]
      rw [List.foldl_cons, hstep]
      by_cases hempty : (registry g.1).isEmpty
      · rw [if_pos hempty, ih _ htail]
        have hfiltpos : (g :: gs).filter (fun g => (registry g.1).isEmpty) =
            g :: gs.filter (fun g => (registry g.1).isEmpty) :=
          List.filter_cons_of_pos (by simpa using hempty)
        have hfiltneg : (g :: gs).filter (fun g => !(registry g.1).isEmpty) =
            gs.filter (fun g => !(registry g.1).isEmpty) :=
          List.filter_cons_of_neg (by simpa using hempty)
        rw [hfiltpos, hfiltneg]
        cases hlast : (gs.filter (fun g => (registry g.1).isEmpty)).getLast? with
        | none =>
            have : gs.filter (fun g => (registry g.1).isEmpty) = [] :=
              List.getLast?_eq_none_iff.1 hlast
            simp [this]
        | some glast =>
            have hne2 : gs.filter (fun g => (registry g.1).isEmpty) ≠ [] := by
              intro hnil; rw [hnil] at hlast; simp at hlast
            obtain ⟨b, l2, hbl⟩ : ∃ b l2,
                gs.filter (fun g => (registry g.1).isEmpty) = b :: l2 := by
              cases h : gs.filter (fun g => (registry g.1).isEmpty) with
              | nil => exact absurd h hne2
              | cons a l => exact ⟨a, l, rfl⟩
            rw [hbl] at hlast ⊢
            simp [List.getLast?_cons_cons, hlast]
      · rw [if_neg hempty, ih _ htail]
        have hfiltpos : (g :: gs).filter (fun g => (registry g.1).isEmpty) =
            gs.filter (fun g => (registry g.1).isEmpty) :=
          List.filter_cons_of_neg (by simpa using hempty)
        have hfiltneg : (g :: gs).filter (fun g => !(registry g.1).isEmpty) =
            g :: gs.filter (fun g => !(registry g.1).isEmpty) :=
          List.filter_cons_of_pos (by simpa using hempty)
        rw [hfiltpos, hfiltneg]
        simp [List.append_assoc]

/-- Full characterization of the engine used by several claims below. -/
theorem cvwm_spec (registry : String → List (Converter M V O))
    (typeName valueStr : V → String) (pairs : List (M × V)) :
    ConvertValuesWithMetadata registry typeName valueStr pairs =
      (((((groupByKey (fun p => typeName p.2) pairs).filter
              (fun g => !(registry g.1).isEmpty)).map
            (fun g => convertGroup (registry g.1) g.2)).flatten),
       match ((groupByKey (fun p => typeName p.2) pairs).filter
              (fun g => (registry g.1).isEmpty)).getLast? with
       | some g => some (groupMsg valueStr g)
       | none => none) := by
  unfold ConvertValuesWithMetadata
  rw [cvwm_foldl_spec registry typeName valueStr _ ([], none)
      (groupByKey_wf (fun p => typeName p.2) pairs)]
  simp

/-- C1: the engine raises `NoConverterFound` iff at least one runtime-type
group had zero matching converters; the error is recorded during the loop and
raised only after all groups were processed, so every successfully converted
group's outputs (the first component) are yielded to the caller before the
error; and the message is built from the last unmatched group in grouping
order (the `getLast?` of the unmatched groups). -/
theorem claim_c1_engine_error_aggregation
    (registry : String → List (Converter M V O)) (typeName valueStr : V → String)
    (pairs : List (M × V)) :
    ConvertValuesWithMetadata registry typeName valueStr pairs =
      (((((groupByKey (fun p => typeName p.2) pairs).filter
              (fun g => !(registry g.1).isEmpty)).map
            (fun g => convertGroup (registry g.1) g.2)).flatten),
       match ((groupByKey (fun p => typeName p.2) pairs).filter
              (fun g => (registry g.1).isEmpty)).getLast? with
       | some g => some (groupMsg valueStr g)
       | none => none) ∧
    ((ConvertValuesWithMetadata registry typeName valueStr pairs).2 ≠ none ↔
      ∃ g ∈ groupByKey (fun p => typeName p.2) pairs, registry g.1 = []) := by
  refine ⟨cvwm_spec registry typeName valueStr pairs, ?_⟩
  rw [cvwm_spec registry typeName valueStr pairs]
  cases hlast : ((groupByKey (fun p => typeName p.2) pairs).filter
      (fun g => (registry g.1).isEmpty)).getLast? with
  | none =>
      have hnil := List.getLast?_eq_none_iff.1 hlast
      constructor
      · intro h
        exact absurd rfl h
      · rintro ⟨g, hg, hreg⟩
        have hmem2 : g ∈ (groupByKey (fun p => typeName p.2) pairs).filter
            (fun g => (registry g.1).isEmpty) :=
          List.mem_filter.2 ⟨hg, by simp [hreg]⟩
        rw [hnil] at hmem2
        exact absurd hmem2 (List.not_mem_nil g)
  | some g =>
      have hmem : g ∈ (groupByKey (fun p => typeName p.2) pairs).filter
          (fun g => (registry g.1).isEmpty) :=
        List.mem_of_getLast?_eq_some hlast
      have hg := List.mem_filter.1 hmem
      constructor
      · intro _
        exact ⟨g, hg.1, List.isEmpty_iff.1 hg.2⟩
      · intro _
        simp

/-- The default (non-overridden) `ExportConverter.BatchConvert`
(src/lib/export.py:136-162): loop over the input pairs and yield every result
of `Convert` on each pair in turn.  `convert` is the converter's single-pair
`Convert` method. -/
def defaultBatchConvert (convert : M → V → List O) (pairs : List (M × V)) : List O :=
  pairs.foldl (fun acc p => acc ++ convert p.1 p.2) []

theorem foldl_append_eq_flatten {β : Type} (f : β → List O) (l : List β)
    (acc : List O) :
    l.foldl (fun a x => a ++ f x) acc = acc ++ (l.map f).flatten := by
  induction l generalizing acc with
  | nil => simp
  | cons x xs ih => simp [ih, List.append_assoc]

/-- C2: for a converter that does not override `BatchConvert`, the default
implementation on `[p1, ..., pn]` yields exactly the concatenation
`Convert p1 ++ Convert p2 ++ ... ++ Convert pn`, preserving input order
across pairs. -/
theorem claim_c2_default_batchConvert_concat (convert : M → V → List O)
    (pairs : List (M × V)) :
    defaultBatchConvert convert pairs =
      (pairs.map (fun p => convert p.1 p.2)).flatten := by
  simpa using foldl_append_eq_flatten (fun p : M × V => convert p.1 p.2) pairs []

end Engine

/-! Concrete data model: the protobuf-backed records of src/lib/export.py,
restricted to the fields the source reads or writes. -/

/-- Python exceptions raised by the embedded code paths. -/
inductive PyError where
  | valueError (msg : String)
  | attributeError (msg : String)
  | indexError
deriving DecidableEq

/-- `ExportOptions` flags read by `StatEntryToExportedFileConverter`
(proto bools default to false: absent options mean disabled). -/
structure ExportOptions where
  export_files_hashes : Bool := false
  export_files_contents : Bool := false
deriving DecidableEq

/-- `ExportedMetadata`: the fields of the metadata context that
src/lib/export.py reads or writes. -/
structure ExportedMetadata where
  client_urn : String := ""
  client_age : Nat := 0
  hostname : String := ""
  os : String := ""
  uname : String := ""
  os_release : String := ""
  os_version : String := ""
  usernames : String := ""
  mac_address : String := ""
  labels : String := ""
  timestamp : Nat := 0
  source_urn : String := ""
  session_id : String := ""
deriving DecidableEq

/-- `StatEntry`: the fields read by the file and registry-key converters.
`registry_type` is presence-checked via `HasField`, hence `Option`.
`registry_data.GetValue()` is modelled as the list of unicode code points of
the stored text. -/
structure StatEntry where
  aff4path : String := ""
  basename : String := ""
  st_mode : Nat := 0
  st_ino : Nat := 0
  st_dev : Nat := 0
  st_nlink : Nat := 0
  st_uid : Nat := 0
  st_gid : Nat := 0
  st_size : Nat := 0
  st_atime : Nat := 0
  st_mtime : Nat := 0
  st_ctime : Nat := 0
  st_blocks : Nat := 0
  st_blksize : Nat := 0
  st_rdev : Nat := 0
  symlink : String := ""
  registry_type : Option Nat := none
  registry_data : List Nat := []
deriving DecidableEq

/-- The optional fields of a `Hash` rdfvalue read by `ParseFileHash`
(src/lib/export.py:188-207).  `ParseSignedData` has an empty body in the
source, so `signed_data` has no observable effect and is omitted. -/
structure HashObject where
  md5 : Option String := none
  sha1 : Option String := none
  sha256 : Option String := none
  pecoff_md5 : Option String := none
  pecoff_sha1 : Option String := none
deriving DecidableEq

/-- `ExportedFile` output record (the fields src/lib/export.py populates). -/
structure ExportedFile where
  metadata : ExportedMetadata
  urn : String := ""
  basename : String := ""
  st_mode : Nat := 0
  st_ino : Nat := 0
  st_dev : Nat := 0
  st_nlink : Nat := 0
  st_uid : Nat := 0
  st_gid : Nat := 0
  st_size : Nat := 0
  st_atime : Nat := 0
  st_mtime : Nat := 0
  st_ctime : Nat := 0
  st_blocks : Nat := 0
  st_blksize : Nat := 0
  st_rdev : Nat := 0
  symlink : String := ""
  hash_md5 : Option String := none
  hash_sha1 : Option String := none
  hash_sha256 : Option String := none
  pecoff_hash_md5 : Option String := none
  pecoff_hash_sha1 : Option String := none
  content : Option (List Nat) := none
  content_sha256 : Option String := none
deriving DecidableEq

/-- `ExportedRegistryKey` output record. -/
structure ExportedRegistryKey where
  metadata : ExportedMetadata
  urn : String := ""
  last_modified : Nat := 0
  type : Nat := 0
  data : List Nat := []
deriving DecidableEq

/-- `StatEntryToExportedFileConverter.ParseFileHash`
(src/lib/export.py:188-207): copy every present hash field onto the result. -/
def ParseFileHash (h : HashObject) (result : ExportedFile) : ExportedFile :=
  let r := match h.md5 with
           | some v => { result with hash_md5 := some v }
           | none => result
  let r := match h.sha1 with
           | some v => { r with hash_sha1 := some v }
           | none => r
  let r := match h.sha256 with
           | some v => { r with hash_sha256 := some v }
           | none => r
  let r := match h.pecoff_md5 with
           | some v => { r with pecoff_hash_md5 := some v }
           | none => r
  match h.pecoff_sha1 with
  | some v => { r with pecoff_hash_sha1 := some v }
  | none => r

/-- The part of an opened AFF4 file object that
`StatEntryToExportedFileConverter` reads: the HASH attribute and the outcome
of `Read(MAX_CONTENT_SIZE)`.  `read_result = none` models the
`IOError`/`AttributeError` caught and logged at src/lib/export.py:281-283
(the content fields are then left unset). -/
structure Aff4FileObject where
  hash : Option HashObject := none
  read_result : Option (List Nat) := none

/-- The `ExportedFile` built from the stat fields alone
(src/lib/export.py:250-266). -/
def statEntryFileBase (metadata : ExportedMetadata) (se : StatEntry) :
    ExportedFile :=
  { metadata := metadata, urn := se.aff4path, basename := se.basename,
    st_mode := se.st_mode, st_ino := se.st_ino, st_dev := se.st_dev,
    st_nlink := se.st_nlink, st_uid := se.st_uid, st_gid := se.st_gid,
    st_size := se.st_size, st_atime := se.st_atime, st_mtime := se.st_mtime,
    st_ctime := se.st_ctime, st_blocks := se.st_blocks,
    st_blksize := se.st_blksize, st_rdev := se.st_rdev,
    symlink := se.symlink }

/-- The per-entry body of `StatEntryToExportedFileConverter.BatchConvert`
(src/lib/export.py:249-287).  `sha256hex` stands for
`hashlib.sha256(...).hexdigest()`; `store` for the dict of objects returned
by `MultiOpen`, whose `KeyError` branch is the `none` case. -/
def statEntryFileConvertOne (opts : ExportOptions)
    (store : String → Option Aff4FileObject) (sha256hex : List Nat → String)
    (metadata : ExportedMetadata) (se : StatEntry) : ExportedFile :=
  let result := statEntryFileBase metadata se
  if opts.export_files_hashes || opts.export_files_contents then
    match store se.aff4path with
    | none => result
    | some fd =>
        let result :=
          if opts.export_files_hashes then
            match fd.hash with
            | some h => ParseFileHash h result
            | none => result
          else result
        if opts.export_files_contents then
          match fd.read_result with
          | some c =>
              { result with content := some c,
                            content_sha256 := some (sha256hex c) }
          | none => result
        else result
  else result

/-- `StatEntryToExportedFileConverter.BatchConvert`
(src/lib/export.py:225-287): entries carrying a `registry_type` field are
filtered out up front and contribute nothing; the remaining entries are
converted in order.  The batched `MultiOpen` over all the batch's aff4 paths
followed by the per-entry `fds_dict` lookup is modelled by consulting `store`
per entry, which returns the same per-entry object. -/
def statEntryFileBatchConvert (opts : ExportOptions)
    (store : String → Option Aff4FileObject) (sha256hex : List Nat → String)
    (pairs : List (ExportedMetadata × StatEntry)) : List ExportedFile :=
  (pairs.filter (fun p => p.2.registry_type.isNone)).map
    (fun p => statEntryFileConvertOne opts store sha256hex p.1 p.2)

/-- Python 2 `str(...)` applied to text: succeeds (as the same text) iff
every character is ASCII, otherwise raises `UnicodeEncodeError` (`none`). -/
def pyStr (cs : List Nat) : Option (List Nat) :=
  if cs.all (fun c => c < 128) then some cs else none

/-- `StatEntryToExportedRegistryKeyConverter.Convert`
(src/lib/export.py:295-327).  When `str(...)` raises `UnicodeEncodeError`,
the handler's first statement evaluates `stat.registry_data` — `stat` being
the standard-library module imported at the top of export.py, which has no
`registry_data` attribute — so an `AttributeError` is raised there and is not
caught by anything in `Convert`. -/
def statEntryRegistryKeyConvert (metadata : ExportedMetadata) (se : StatEntry) :
    Except PyError (List ExportedRegistryKey) :=
  match se.registry_type with
  | none => .ok []
  | some t =>
      match pyStr se.registry_data with
      | some data =>
          .ok [{ metadata := metadata, urn := se.aff4path,
                 last_modified := se.st_mtime, type := t, data := data }]
      | none =>
          .error (.attributeError "module stat has no attribute registry_data")

/-- C5: the claim fails on the code.  For a registry entry whose data is not
ASCII-representable (here the single code point 233), `Convert` does not fall
back to a byte-level representation and emit the record: the fallback branch
evaluates `stat.registry_data` on the standard-library `stat` module and
raises an uncaught `AttributeError`, aborting the record's conversion. -/
theorem claim_c5_registry_decode_fallback_is_broken :
    statEntryRegistryKeyConvert {}
        { registry_type := some 1, registry_data := [233] } =
      .error (.attributeError "module stat has no attribute registry_data") := by
  rfl

/-- C8: a record matching the converter's declared input type tag but of the
wrong logical sub-kind yields an empty result, never an error: a batch of
registry-type `StatEntry`s gives `StatEntryToExportedFileConverter` nothing
to yield, and a `StatEntry` without `registry_type` makes
`StatEntryToExportedRegistryKeyConverter.Convert` return `[]` (and an `ok`,
not an exception). -/
theorem claim_c8_wrong_subkind_yields_empty
    (opts : ExportOptions) (store : String → Option Aff4FileObject)
    (sha256hex : List Nat → String)
    (pairs : List (ExportedMetadata × StatEntry))
    (hreg : ∀ p ∈ pairs, (p.2.registry_type).isSome)
    (metadata : ExportedMetadata) (se : StatEntry)
    (hfile : se.registry_type = none) :
    statEntryFileBatchConvert opts store sha256hex pairs = [] ∧
    statEntryRegistryKeyConvert metadata se = .ok [] := by
  constructor
  · unfold statEntryFileBatchConvert
    have hnil : pairs.filter (fun p => p.2.registry_type.isNone) = [] := by
      rw [List.filter_eq_nil_iff]
      intro p hp
      have := hreg p hp
      simp only [Option.isNone_iff_eq_none]
      intro hnone
      rw [hnone] at this
      simp at this
    rw [hnil]
    rfl
  · unfold statEntryRegistryKeyConvert
    rw [hfile]

theorem claim_c8_wrong_subkind_yields_empty_witness :
    ((∀ p ∈ [(({} : ExportedMetadata),
        ({ registry_type := some 1 } : StatEntry))], (p.2.registry_type).isSome) ∧
      ({} : StatEntry).registry_type = none) ∧
    (statEntryFileBatchConvert {} (fun _ => none) (fun _ => "")
        [({}, { registry_type := some 1 })] = [] ∧
      statEntryRegistryKeyConvert {} {} = .ok []) :=
  ⟨⟨by simp, rfl⟩,
    claim_c8_wrong_subkind_yields_empty {} (fun _ => none) (fun _ => "")
      [({}, { registry_type := some 1 })] (by simp) {} {} rfl⟩

/-- Truthiness of the `mapping` class attribute: `if not self.mapping` is
taken for `None` and for an empty mapping (src/lib/export.py:411). -/
def mappingTruthy (m : Option (List (String × String))) : Bool :=
  match m with
  | none => false
  | some l => !l.isEmpty

/-- `VolatilityResultConverter.__init__` (src/lib/export.py:409-415): raise
`ValueError` at construction time when the required `mapping` or
`output_rdf_cls` class attribute is missing; otherwise construction succeeds
and the converter keeps both values. -/
def volatilityResultConverterInit (mapping : Option (List (String × String)))
    (output_rdf_cls : Option String) :
    Except PyError (List (String × String) × String) :=
  if !mappingTruthy mapping then
    .error (.valueError "Mapping not specified.")
  else if output_rdf_cls.isNone then
    .error (.valueError "output_rdf_cls not specified")
  else
    .ok (mapping.getD [], output_rdf_cls.getD "")

/-- The `mapping` of `VolatilityResultToExportedVolatilityHandleConverter`
(src/lib/export.py:447-454). -/
def volatilityHandleMapping : List (String × String) :=
  [("offset_v", "offset"), ("pid", "pid"), ("handle", "handle"),
   ("access", "access"), ("obj_type", "type"), ("details", "path")]

/-- The `mapping` of `VolatilityResultToExportedVolatilityMutantConverter`
(src/lib/export.py:463-471). -/
def volatilityMutantMapping : List (String × String) :=
  [("offset_p", "offset"), ("ptr_count", "ptr_count"),
   ("hnd_count", "handle_count"), ("mutant_signal", "signal"),
   ("mutant_thread", "thread"), ("cid", "cid"), ("mutant_name", "name")]

/-- C9: a Volatility result converter whose required configuration value is
absent fails at construction time with a `ValueError`, before any record is
processed; with both values present (as in the two concrete subclasses)
construction succeeds without error. -/
theorem claim_c9_required_config_fails_at_construction :
    (∀ cls, volatilityResultConverterInit none cls =
        .error (.valueError "Mapping not specified.")) ∧
    (∀ m, mappingTruthy m →
        volatilityResultConverterInit m none =
          .error (.valueError "output_rdf_cls not specified")) ∧
    volatilityResultConverterInit (some volatilityHandleMapping)
        (some "ExportedVolatilityHandle") =
      .ok (volatilityHandleMapping, "ExportedVolatilityHandle") ∧
    volatilityResultConverterInit (some volatilityMutantMapping)
        (some "ExportedVolatilityMutant") =
      .ok (volatilityMutantMapping, "ExportedVolatilityMutant") := by
  refine ⟨fun cls => rfl, fun m hm => ?_, rfl, rfl⟩
  simp only [volatilityResultConverterInit, hm, Bool.not_true,
    Bool.false_eq_true, if_false, Option.isNone_none, if_true]

theorem claim_c9_required_config_fails_at_construction_witness :
    (mappingTruthy (some volatilityHandleMapping) = true) ∧
    volatilityResultConverterInit (some volatilityHandleMapping) none =
      .error (.valueError "output_rdf_cls not specified") :=
  ⟨by decide,
    claim_c9_required_config_fails_at_construction.2.1
      (some volatilityHandleMapping) (by decide)⟩

/-! The indirection converter (`RDFURNConverter`). -/

/-- Modelled from the spec: `aff4.FACTORY.MultiOpen` (grr.lib.aff4, not under
src/).  §6: `OpenMany(sequence of addresses) → (address→object)`, read-only
and batched; a missing address is simply absent from the result. -/
def multiOpen {β : Type} (store : String → Option β) (urns : List String) :
    List (String × β) :=
  urns.filterMap (fun u => (store u).map (fun o => (u, o)))

/-- Keys of a Python dict built from an association list, in first-insertion
order. -/
def dictKeys {β : Type} (l : List (String × β)) : List String :=
  l.foldl (fun ks p => if p.1 ∈ ks then ks else ks ++ [p.1]) []

/-- Lookup in a Python dict built from an association list: the last binding
of a key wins. -/
def dictLookup {β : Type} (l : List (String × β)) (k : String) : Option β :=
  (l.reverse.find? (fun p => p.1 == k)).map Prod.snd

/-- `RDFURNConverter.BatchConvert` (src/lib/export.py:525-543).  `asUrn`
models the `isinstance(value, rdfvalue.RDFURN)` test (the address carried by
an RDFURN value); `store` models `aff4.FACTORY.MultiOpen`.  The source wraps
`return ConvertValuesWithMetadata(batch)` in `try/except NoConverterFound`,
but `ConvertValuesWithMetadata` is a generator function: evaluating the call
merely constructs the (unconsumed) generator object and can never raise, so
the `except`/log/`return []` branch is unreachable and the terminal
`NoConverterFound` of the returned sequence reaches whoever iterates it.
That is why the model returns the engine's result — terminal error
included — unchanged. -/
def rdfurnBatchConvert {M V B O : Type} (asUrn : V → Option String)
    (store : String → Option B) (registry : String → List (Converter M B O))
    (typeName valueStr : B → String) (pairs : List (M × V)) :
    List O × Option String :=
  let urnMetadataPairs := pairs.filterMap
    (fun p => (asUrn p.2).map (fun u => (u, p.1)))
  let fds := multiOpen store (dictKeys urnMetadataPairs)
  let batch := fds.filterMap
    (fun uo => (dictLookup urnMetadataPairs uo.1).map (fun m => (m, uo.2)))
  ConvertValuesWithMetadata registry typeName valueStr batch

/-- C3: the claim fails on the code.  One (metadata, RDFURN) pair whose
address resolves to an object of a type with no registered converter: the
recursive engine invocation's `NoConverterFound` is not swallowed by
`BatchConvert`'s `try/except` (which only ever sees the construction of the
generator); the consumer of the returned sequence observes the error instead
of an empty result. -/
theorem claim_c3_indirection_error_reaches_consumer :
    rdfurnBatchConvert (fun v : Option String => v)
        (fun u => if u == "aff4:/foo" then some "obj" else none)
        (fun _ => ([] : List (Converter Unit String String)))
        (fun _ => "SomeUnknownType") (fun s => s)
        [((), some "aff4:/foo")] =
      ([], some "No converters found for value: obj") := by
  rfl

/-! The collection converter (`RDFValueCollectionConverter`). -/

/-- Modelled from the spec: `utils.Grouper` (grr.lib.utils, not under src/).
§4.5: split a sequence into consecutive fixed-size sub-batches, the last one
possibly shorter. -/
def grouper {α : Type} (n : Nat) (l : List α) : List (List α) :=
  match l with
  | [] => []
  | x :: xs =>
      if _ : n = 0 then [x :: xs]
      else (x :: xs).take n :: grouper n ((x :: xs).drop n)
termination_by l.length
decreasing_by
  simp only [List.length_drop, List.length_cons]
  omega

theorem grouper_nil {α : Type} (n : Nat) : grouper n ([] : List α) = [] := by
  rw [grouper]

theorem grouper_eq_cons {α : Type} (n : Nat) (l : List α) (hn : n ≠ 0)
    (hl : l ≠ []) :
    grouper n l = l.take n :: grouper n (l.drop n) := by
  match l with
  | [] => exact absurd rfl hl
  | x :: xs => rw [grouper, dif_neg hn]

/-- The sub-batches reassemble exactly the original collection. -/
theorem grouper_flatten {α : Type} (n : Nat) (l : List α) :
    (grouper n l).flatten = l := by
  have H : ∀ (len : Nat) (l : List α), l.length = len →
      (grouper n l).flatten = l := by
    intro len
    induction len using Nat.strong_induction_on with
    | _ len ih =>
        intro l hlen
        match l with
        | [] => rw [grouper_nil]; rfl
        | x :: xs =>
            by_cases hn : n = 0
            · rw [grouper, dif_pos hn]
              simp
            · rw [grouper_eq_cons n _ hn (by simp), List.flatten_cons]
              have hlt : ((x :: xs).drop n).length < len := by
                rw [← hlen]
                simp only [List.length_drop, List.length_cons]
                omega
              rw [ih _ hlt _ rfl]
              exact List.take_append_drop n (x :: xs)
  exact H l.length l rfl

/-- Sub-batch sizes for a 2500-element collection and batch size 1000:
exactly three sub-batches, of sizes 1000, 1000 and 500. -/
theorem grouper_sizes_2500 {α : Type} (l : List α) (h : l.length = 2500) :
    (grouper 1000 l).map List.length = [1000, 1000, 500] := by
  have h1 : l ≠ [] := by
    intro hnil; rw [hnil] at h; simp at h
  rw [grouper_eq_cons 1000 l (by omega) h1]
  have hd1 : (l.drop 1000).length = 1500 := by simp [h]
  have h2 : l.drop 1000 ≠ [] := by
    intro hnil; rw [hnil] at hd1; simp at hd1
  rw [grouper_eq_cons 1000 _ (by omega) h2]
  have hd2 : ((l.drop 1000).drop 1000).length = 500 := by simp [h]
  have h3 : (l.drop 1000).drop 1000 ≠ [] := by
    intro hnil; rw [hnil] at hd2; simp at hd2
  rw [grouper_eq_cons 1000 _ (by omega) h3]
  have hd3 : (((l.drop 1000).drop 1000).drop 1000).length = 0 := by simp [h]
  have h4 : ((l.drop 1000).drop 1000).drop 1000 = [] :=
    List.eq_nil_of_length_eq_zero hd3
  rw [h4, grouper_nil]
  simp only [List.map_cons, List.map_nil, List.length_take]
  rw [h, hd1, hd2]
  decide

section BatchEquivalence

variable {M V O : Type}

/-- `ConvertValues` (src/lib/export.py:868-890): pair the shared default
metadata with every value and delegate to `ConvertValuesWithMetadata`. -/
def ConvertValues (registry : String → List (Converter M V O))
    (typeName valueStr : V → String) (default_metadata : M) (values : List V) :
    List O × Option String :=
  ConvertValuesWithMetadata registry typeName valueStr
    (values.map (fun v => (default_metadata, v)))

/-- Consuming the collection converter's generator: each sub-batch's results
are yielded in order; a sub-batch whose recursive conversion raises stops the
iteration there and propagates the error after the earlier outputs. -/
def runChunks (rs : List (List O × Option String)) : List O × Option String :=
  match rs with
  | [] => ([], none)
  | r :: rest =>
      match r.2 with
      | some e => (r.1, some e)
      | none => (r.1 ++ (runChunks rest).1, (runChunks rest).2)

/-- `RDFValueCollectionConverter.Convert` (src/lib/export.py:546-560): split
the collection into sub-batches of `BATCH_SIZE = 1000`, recursively invoke
the engine (`ConvertValues`) on each sub-batch with the same metadata
context, and stream the results sub-batch by sub-batch.  (The
`if not collection: return` early exit coincides with `grouper` returning
`[]` on an empty collection.) -/
def rdfValueCollectionConvert (registry : String → List (Converter M V O))
    (typeName valueStr : V → String) (metadata : M) (collection : List V) :
    List O × Option String :=
  runChunks ((grouper 1000 collection).map
    (fun batch => ConvertValues registry typeName valueStr metadata batch))

/-- A converter that did not override `BatchConvert`: its batch conversion is
the inherited default built from some single-pair `Convert`. -/
def IsDefaultBatch (c : Converter M V O) : Prop :=
  ∃ f, ∀ pairs, c.batchConvert pairs = defaultBatchConvert f pairs

/-- Per-pair conversion: every registered converter for the pair's own type
applied to the singleton batch.  This is the reference point for "converting
all records in one pass vs in sub-batches". -/
def pointwiseAll (registry : String → List (Converter M V O))
    (typeName : V → String) (pairs : List (M × V)) : List O :=
  (pairs.map (fun p => ((registry (typeName p.2)).map
      (fun c => c.batchConvert [p])).flatten)).flatten

/-- The multiset of elements of a list (order forgotten). -/
def mset (l : List O) : Multiset O := (l : Multiset O)

theorem mset_append (l1 l2 : List O) : mset (l1 ++ l2) = mset l1 + mset l2 := by
  unfold mset
  rw [← Multiset.coe_add]

theorem mset_flatten_eq_sum (ll : List (List O)) :
    mset ll.flatten = (ll.map mset).sum := by
  induction ll with
  | nil => rfl
  | cons l ls ih =>
      rw [List.flatten_cons, mset_append, List.map_cons, List.sum_cons, ih]

theorem mset_of_perm {l1 l2 : List O} (h : l1.Perm l2) : mset l1 = mset l2 :=
  Multiset.coe_eq_coe.2 h

theorem sum_map_add_mset {δ : Type} (l : List δ) (f g : δ → Multiset O) :
    (l.map (fun x => f x + g x)).sum = (l.map f).sum + (l.map g).sum := by
  induction l with
  | nil => simp
  | cons x xs ih =>
      simp only [List.map_cons, List.sum_cons, ih]
      abel

theorem sum_map_swap {γ δ : Type} (cs : List γ) (ps : List δ)
    (F : γ → δ → Multiset O) :
    (cs.map (fun c => (ps.map (fun p => F c p)).sum)).sum =
      (ps.map (fun p => (cs.map (fun c => F c p)).sum)).sum := by
  induction cs with
  | nil => simp
  | cons c cs ih =>
      simp only [List.map_cons, List.sum_cons]
      rw [ih, sum_map_add_mset]

theorem pointwiseAll_perm (registry : String → List (Converter M V O))
    (typeName : V → String) {l1 l2 : List (M × V)} (h : l1.Perm l2) :
    mset (pointwiseAll registry typeName l1) =
      mset (pointwiseAll registry typeName l2) := by
  unfold pointwiseAll
  rw [mset_flatten_eq_sum, mset_flatten_eq_sum, List.map_map, List.map_map]
  exact List.Perm.sum_eq (h.map _)

theorem defaultBatchConvert_singleton (convert : M → V → List O) (p : M × V) :
    defaultBatchConvert convert [p] = convert p.1 p.2 := by
  simp [defaultBatchConvert]

theorem isDefaultBatch_mset_sum {c : Converter M V O} (h : IsDefaultBatch c)
    (ps : List (M × V)) :
    mset (c.batchConvert ps) =
      (ps.map (fun p => mset (c.batchConvert [p]))).sum := by
  obtain ⟨f, hf⟩ := h
  rw [hf, show defaultBatchConvert f ps = (ps.map (fun p => f p.1 p.2)).flatten
      from by simpa using foldl_append_eq_flatten (fun p : M × V => f p.1 p.2) ps [],
    mset_flatten_eq_sum, List.map_map]
  congr 1
  apply List.map_congr_left
  intro p _
  simp only [Function.comp_apply]
  rw [hf, defaultBatchConvert_singleton]

theorem convertGroup_mset_pointwise (registry : String → List (Converter M V O))
    (typeName : V → String) (k : String) (grp : List (M × V))
    (hpt : ∀ c ∈ registry k, IsDefaultBatch c)
    (hkey : ∀ p ∈ grp, typeName p.2 = k) :
    mset (convertGroup (registry k) grp) =
      mset (pointwiseAll registry typeName grp) := by
  unfold convertGroup pointwiseAll
  rw [mset_flatten_eq_sum, mset_flatten_eq_sum, List.map_map, List.map_map]
  have hcongr : (registry k).map (mset ∘ fun c => c.batchConvert grp) =
      (registry k).map (fun c =>
        (grp.map (fun p => mset (c.batchConvert [p]))).sum) :=
    List.map_congr_left (fun c hc => isDefaultBatch_mset_sum (hpt c hc) grp)
  rw [hcongr, sum_map_swap]
  congr 1
  apply List.map_congr_left
  intro p hp
  simp only [Function.comp_apply]
  rw [mset_flatten_eq_sum, List.map_map, hkey p hp]
  rfl

theorem pointwiseAll_append (registry : String → List (Converter M V O))
    (typeName : V → String) (l1 l2 : List (M × V)) :
    pointwiseAll registry typeName (l1 ++ l2) =
      pointwiseAll registry typeName l1 ++ pointwiseAll registry typeName l2 := by
  unfold pointwiseAll
  rw [List.map_append, List.flatten_append]

theorem sum_pointwiseAll_flatten (registry : String → List (Converter M V O))
    (typeName : V → String) (ll : List (List (M × V))) :
    (ll.map (fun l => mset (pointwiseAll registry typeName l))).sum =
      mset (pointwiseAll registry typeName ll.flatten) := by
  induction ll with
  | nil => simp [pointwiseAll, mset]
  | cons l ls ih =>
      rw [List.map_cons, List.sum_cons, ih, List.flatten_cons,
        pointwiseAll_append, mset_append]

/-- The engine on a fully covered batch of pointwise converters: no error,
and the output is (as a multiset) exactly the per-pair conversion of every
input pair. -/
theorem cvwm_full_coverage (registry : String → List (Converter M V O))
    (typeName valueStr : V → String) (pairs : List (M × V))
    (hcov : ∀ p ∈ pairs, registry (typeName p.2) ≠ [])
    (hpt : ∀ t, ∀ c ∈ registry t, IsDefaultBatch c) :
    (ConvertValuesWithMetadata registry typeName valueStr pairs).2 = none ∧
    mset (ConvertValuesWithMetadata registry typeName valueStr pairs).1 =
      mset (pointwiseAll registry typeName pairs) := by
  rw [cvwm_spec]
  have hwf := groupByKey_wf (fun p : M × V => typeName p.2) pairs
  have hmatched : ∀ g ∈ groupByKey (fun p : M × V => typeName p.2) pairs,
      ¬((registry g.1).isEmpty = true) := by
    intro g hg
    obtain ⟨hne, hkey⟩ := hwf g hg
    obtain ⟨p1, rest, hp⟩ : ∃ p1 rest, g.2 = p1 :: rest := by
      cases h : g.2 with
      | nil => exact absurd h hne
      | cons a l => exact ⟨a, l, rfl⟩
    have hmem : p1 ∈ pairs :=
      groupByKey_mem hg (by rw [hp]; exact List.mem_cons_self _ _)
    have hc := hcov p1 hmem
    have hk : typeName p1.2 = g.1 :=
      hkey p1 (by rw [hp]; exact List.mem_cons_self _ _)
    rw [hk] at hc
    simpa [List.isEmpty_iff] using hc
  have hfilt_pos : (groupByKey (fun p : M × V => typeName p.2) pairs).filter
      (fun g => !(registry g.1).isEmpty) =
        groupByKey (fun p : M × V => typeName p.2) pairs :=
    List.filter_eq_self.2 (fun g hg => by simpa using hmatched g hg)
  have hfilt_neg : (groupByKey (fun p : M × V => typeName p.2) pairs).filter
      (fun g => (registry g.1).isEmpty) = [] :=
    List.filter_eq_nil_iff.2 (fun g hg => hmatched g hg)
  rw [hfilt_pos, hfilt_neg]
  refine ⟨rfl, ?_⟩
  rw [mset_flatten_eq_sum, List.map_map]
  have hcongr : (groupByKey (fun p : M × V => typeName p.2) pairs).map
        (mset ∘ fun g => convertGroup (registry g.1) g.2) =
      (groupByKey (fun p : M × V => typeName p.2) pairs).map
        (fun g => mset (pointwiseAll registry typeName g.2)) :=
    List.map_congr_left (fun g hg =>
      convertGroup_mset_pointwise registry typeName g.1 g.2
        (hpt g.1) (hwf g hg).2)
  rw [hcongr,
    show (groupByKey (fun p : M × V => typeName p.2) pairs).map
        (fun g => mset (pointwiseAll registry typeName g.2)) =
      ((groupByKey (fun p : M × V => typeName p.2) pairs).map Prod.snd).map
        (fun l => mset (pointwiseAll registry typeName l))
      from (List.map_map (fun l => mset (pointwiseAll registry typeName l))
        Prod.snd (groupByKey (fun p : M × V => typeName p.2) pairs)).symm,
    sum_pointwiseAll_flatten]
  exact pointwiseAll_perm registry typeName
    (groupByKey_flatten_perm (fun p : M × V => typeName p.2) pairs)

theorem runChunks_all_ok (rs : List (List O × Option String))
    (h : ∀ r ∈ rs, r.2 = none) :
    runChunks rs = ((rs.map Prod.fst).flatten, none) := by
  induction rs with
  | nil => rfl
  | cons r rest ih =>
      have hr := h r (List.mem_cons_self _ _)
      rw [runChunks, hr, ih (fun x hx => h x (List.mem_cons_of_mem _ hx))]
      simp

/-- C4: the collection converter splits the collection into consecutive
sub-batches of the fixed batch size 1000 which reassemble the collection
exactly; a 2500-record collection yields exactly 3 recursive Engine
invocations, of sizes 1000, 1000 and 500; and — when every record's type has
a registered converter and the registered converters use the default
per-record `BatchConvert` — the concatenation of the recursive results
carries no error and equals, as a multiset of output records, converting all
records in one un-batched pass with the same metadata. -/
theorem claim_c4_collection_converter_batches
    (registry : String → List (Converter M V O))
    (typeName valueStr : V → String) (metadata : M) (collection : List V) :
    (grouper 1000 collection).flatten = collection ∧
    (collection.length = 2500 →
      (grouper 1000 collection).map List.length = [1000, 1000, 500]) ∧
    ((∀ v ∈ collection, registry (typeName v) ≠ []) →
     (∀ t, ∀ c ∈ registry t, IsDefaultBatch c) →
      (rdfValueCollectionConvert registry typeName valueStr metadata
          collection).2 = none ∧
      (ConvertValues registry typeName valueStr metadata collection).2 = none ∧
      mset (rdfValueCollectionConvert registry typeName valueStr metadata
          collection).1 =
        mset (ConvertValues registry typeName valueStr metadata
          collection).1) := by
  refine ⟨grouper_flatten 1000 collection, grouper_sizes_2500 collection, ?_⟩
  intro hcov hpt
  have hsub : ∀ b ∈ grouper 1000 collection, ∀ v ∈ b, v ∈ collection := by
    intro b hb v hv
    have hmem : v ∈ (grouper 1000 collection).flatten :=
      List.mem_flatten.2 ⟨b, hb, hv⟩
    rwa [grouper_flatten] at hmem
  have hchunk : ∀ b ∈ grouper 1000 collection,
      (ConvertValues registry typeName valueStr metadata b).2 = none ∧
      mset (ConvertValues registry typeName valueStr metadata b).1 =
        mset (pointwiseAll registry typeName
          (b.map (fun v => (metadata, v)))) := by
    intro b hb
    exact cvwm_full_coverage registry typeName valueStr _
      (by
        intro p hp
        obtain ⟨v, hv, rfl⟩ := List.mem_map.1 hp
        exact hcov v (hsub b hb v hv))
      hpt
  have hall : ∀ r ∈ (grouper 1000 collection).map
      (fun b => ConvertValues registry typeName valueStr metadata b),
      r.2 = none := by
    intro r hr
    obtain ⟨b, hb, rfl⟩ := List.mem_map.1 hr
    exact (hchunk b hb).1
  have hrun := runChunks_all_ok _ hall
  have hone := cvwm_full_coverage registry typeName valueStr
    (collection.map (fun v => (metadata, v)))
    (by
      intro p hp
      obtain ⟨v, hv, rfl⟩ := List.mem_map.1 hp
      exact hcov v hv)
    hpt
  refine ⟨?_, hone.1, ?_⟩
  · rw [rdfValueCollectionConvert, hrun]
  · rw [rdfValueCollectionConvert, hrun]
    show mset (((grouper 1000 collection).map
        (fun b => ConvertValues registry typeName valueStr metadata b)).map
          Prod.fst).flatten = _
    rw [List.map_map, mset_flatten_eq_sum, List.map_map]
    have hcongr : (grouper 1000 collection).map
          (mset ∘ (Prod.fst ∘ fun b =>
            ConvertValues registry typeName valueStr metadata b)) =
        (grouper 1000 collection).map (fun b =>
          mset (pointwiseAll registry typeName
            (b.map (fun v => (metadata, v))))) :=
      List.map_congr_left (fun b hb => (hchunk b hb).2)
    rw [hcongr,
      show (grouper 1000 collection).map (fun b =>
          mset (pointwiseAll registry typeName
            (b.map (fun v => (metadata, v))))) =
        ((grouper 1000 collection).map
            (List.map (fun v => (metadata, v)))).map
          (fun l => mset (pointwiseAll registry typeName l))
        from (List.map_map (fun l => mset (pointwiseAll registry typeName l))
          (List.map (fun v => (metadata, v))) (grouper 1000 collection)).symm,
      sum_pointwiseAll_flatten,
      show ((grouper 1000 collection).map
          (List.map (fun v => (metadata, v)))).flatten =
        collection.map (fun v => (metadata, v))
        from by rw [← List.map_flatten, grouper_flatten]]
    exact hone.2.symm

/-- A trivial pointwise converter used to instantiate the witness. -/
def unitConverter : Converter Unit Unit Unit :=
  ⟨defaultBatchConvert (fun _ _ => [()])⟩

theorem claim_c4_collection_converter_batches_witness :
    ((List.replicate 2500 ()).length = 2500 ∧
      (∀ v ∈ List.replicate 2500 (),
        (fun _ : String => [unitConverter]) ((fun _ : Unit => "Unit") v) ≠ []) ∧
      (∀ t : String, ∀ c ∈ (fun _ : String => [unitConverter]) t,
        IsDefaultBatch c)) ∧
    ((grouper 1000 (List.replicate 2500 ())).map List.length =
        [1000, 1000, 500] ∧
      (rdfValueCollectionConvert (fun _ => [unitConverter]) (fun _ => "Unit")
          (fun _ => "") () (List.replicate 2500 ())).2 = none ∧
      mset (rdfValueCollectionConvert (fun _ => [unitConverter])
          (fun _ => "Unit") (fun _ => "") () (List.replicate 2500 ())).1 =
        mset (ConvertValues (fun _ => [unitConverter]) (fun _ => "Unit")
          (fun _ => "") () (List.replicate 2500 ())).1) := by
  have hlen : (List.replicate 2500 ()).length = 2500 :=
    List.length_replicate 2500 ()
  have hcov : ∀ v ∈ List.replicate 2500 (),
      (fun _ : String => [unitConverter]) ((fun _ : Unit => "Unit") v) ≠ [] := by
    intro v hv
    simp
  have hpt : ∀ t : String, ∀ c ∈ (fun _ : String => [unitConverter]) t,
      IsDefaultBatch c := by
    intro t c hc
    rw [List.mem_singleton] at hc
    subst hc
    exact ⟨fun _ _ => [()], fun ps => rfl⟩
  have h := claim_c4_collection_converter_batches
    (fun _ => [unitConverter]) (fun _ => "Unit") (fun _ => "") ()
    (List.replicate 2500 ())
  exact ⟨⟨hlen, hcov, hpt⟩,
    h.2.1 hlen, (h.2.2 hcov hpt).1, (h.2.2 hcov hpt).2.2⟩

end BatchEquivalence

/-! The cross-batch metadata enrichment converter (`GrrMessageConverter`). -/

/-- The part of a client object (`VFSGRRClient`) read by `GetMetadata`
(src/lib/export.py:772-820).  `client_labels` models the `CLIENT_INFO`
attribute (`none` when absent). -/
structure ClientObj where
  urn : String := ""
  age : Nat := 0
  hostname : String := ""
  os : String := ""
  uname : String := ""
  os_release : String := ""
  os_version : String := ""
  usernames : String := ""
  mac_address : String := ""
  client_labels : Option (List String) := none
deriving DecidableEq

/-- `GetMetadata` (src/lib/export.py:772-820) applied to an already opened
client object: build an `ExportedMetadata` from the client's descriptive
attributes.  `now` stands for `rdfvalue.RDFDatetime().Now()`. -/
def GetMetadata (now : Nat) (c : ClientObj) : ExportedMetadata :=
  { client_urn := c.urn, client_age := c.age, hostname := c.hostname,
    os := c.os, uname := c.uname, os_release := c.os_release,
    os_version := c.os_version, usernames := c.usernames,
    mac_address := c.mac_address,
    labels := match c.client_labels with
              | some ls => String.intercalate "," ls
              | none => "",
    timestamp := now, source_urn := "", session_id := "" }

/-- `GrrMessage`: the transport envelope — originating client (`source`) and
payload. -/
structure GrrMessage (P : Type) where
  source : String
  payload : P

section GrrMessageConverter

variable {P O : Type}

/-- The batch grouped by `msg.source` (src/lib/export.py:658-662). -/
def msgDictOf (pairs : List (ExportedMetadata × GrrMessage P)) :
    List (String × List (ExportedMetadata × GrrMessage P)) :=
  groupByKey (fun p => p.2.source) pairs

/-- The metadata objects available after the lookup phase
(src/lib/export.py:664-680): cache hits for the grouped sources, followed by
`GetMetadata` of every client the `MultiOpen` of the remaining sources
returned.  A source absent from both the cache and the store contributes no
metadata object. -/
def metadataObjectsOf (cache : String → Option ExportedMetadata)
    (store : String → Option ClientObj) (now : Nat) (keys : List String) :
    List ExportedMetadata :=
  keys.filterMap cache ++
    (multiOpen store (keys.filter (fun u => (cache u).isNone))).map
      (fun uo => GetMetadata now uo.2)

/-- One source's records enriched (src/lib/export.py:686-690): clone the
source's metadata, overriding `source_urn` and `timestamp` from the record's
own provided metadata, and pair it with the record's payload. -/
def enrichGroup (md : ExportedMetadata)
    (grp : List (ExportedMetadata × GrrMessage P)) :
    List (ExportedMetadata × P) :=
  grp.map (fun p =>
    ({ md with source_urn := p.1.source_urn, timestamp := p.1.timestamp },
     p.2.payload))

/-- The enrichment phase of `GrrMessageConverter.BatchConvert`
(src/lib/export.py:657-693): for every available metadata object, find its
source's group (the `KeyError`/`pass` branch is the `none` case) and emit the
group's enriched records. -/
def grrMessageBatchData (cache : String → Option ExportedMetadata)
    (store : String → Option ClientObj) (now : Nat)
    (pairs : List (ExportedMetadata × GrrMessage P)) :
    List (ExportedMetadata × P) :=
  let msgDict := msgDictOf pairs
  ((metadataObjectsOf cache store now (msgDict.map Prod.fst)).map (fun md =>
    match (msgDict.find? (fun g => g.1 == md.client_urn)).map Prod.snd with
    | none => []
    | some grp => enrichGroup md grp)).flatten

/-- `GrrMessageConverter.BatchConvert` (src/lib/export.py:637-699): resolve
converters from the first message's payload type (payloads are assumed
uniform across the batch), enrich the metadata per record, then run every
converter on the whole enriched batch and concatenate the results.  On an
empty batch `metadata_value_pairs[0]` raises `IndexError`. -/
def grrMessageBatchConvert
    (registry : String → List (Converter ExportedMetadata P O))
    (payloadTypeName : P → String)
    (cache : String → Option ExportedMetadata)
    (store : String → Option ClientObj) (now : Nat)
    (pairs : List (ExportedMetadata × GrrMessage P)) :
    Except PyError (List O) :=
  match pairs with
  | [] => .error .indexError
  | p0 :: _ =>
      .ok (((registry (payloadTypeName p0.2.payload)).map
        (fun c => c.batchConvert (grrMessageBatchData cache store now pairs))).flatten)

/-- A source that can be resolved during the run: cached, or openable in the
store. -/
def Resolvable (cache : String → Option ExportedMetadata)
    (store : String → Option ClientObj) (u : String) : Bool :=
  (cache u).isSome || (store u).isSome

/-- The metadata under which a resolvable source is known during the run: the
cache entry if present, otherwise the opened client's `GetMetadata`. -/
def resolvedMeta (cache : String → Option ExportedMetadata)
    (store : String → Option ClientObj) (now : Nat) (u : String) :
    Option ExportedMetadata :=
  match cache u with
  | some m => some m
  | none => (store u).map (GetMetadata now)

/-- `MultiOpen` invariant: an opened object carries the urn it was opened
under. -/
def StoreWF (store : String → Option ClientObj) : Prop :=
  ∀ u c, store u = some c → c.urn = u

/-- Invariant of `cached_metadata`: it is populated only at
`self.cached_metadata[metadata.client_urn] = metadata`
(src/lib/export.py:679), so every entry is keyed by its own `client_urn`. -/
def CacheWF (cache : String → Option ExportedMetadata) : Prop :=
  ∀ u m, cache u = some m → m.client_urn = u

theorem filter_insertGrouped_pos {α : Type} (key : α → String)
    (Q : String → Bool) (x : α) (hx : Q (key x) = true)
    (gs : List (String × List α)) :
    (insertGrouped key x gs).filter (fun g => Q g.1) =
      insertGrouped key x (gs.filter (fun g => Q g.1)) := by
  induction gs with
  | nil => simp [insertGrouped, List.filter_cons, hx]
  | cons g0 gs ih =>
      by_cases hk : key x = g0.1
      · have hq0 : Q g0.1 = true := by rw [← hk]; exact hx
        rw [insertGrouped, if_pos hk,
          List.filter_cons_of_pos (by simpa using hq0),
          List.filter_cons_of_pos (by simpa using hq0),
          insertGrouped, if_pos hk]
      · rw [insertGrouped, if_neg hk]
        cases hq0 : Q g0.1 with
        | true =>
            rw [List.filter_cons_of_pos (by simpa using hq0),
              List.filter_cons_of_pos (by simpa using hq0), ih,
              insertGrouped, if_neg hk]
        | false =>
            rw [List.filter_cons_of_neg (by simp [hq0]),
              List.filter_cons_of_neg (by simp [hq0]), ih]

theorem filter_insertGrouped_neg {α : Type} (key : α → String)
    (Q : String → Bool) (x : α) (hx : Q (key x) = false)
    (gs : List (String × List α)) :
    (insertGrouped key x gs).filter (fun g => Q g.1) =
      gs.filter (fun g => Q g.1) := by
  induction gs with
  | nil => simp [insertGrouped, List.filter_cons, hx]
  | cons g0 gs ih =>
      by_cases hk : key x = g0.1
      · have hq0 : Q g0.1 = false := by rw [← hk]; exact hx
        rw [insertGrouped, if_pos hk,
          List.filter_cons_of_neg (by simp [hq0]),
          List.filter_cons_of_neg (by simp [hq0])]
      · rw [insertGrouped, if_neg hk]
        cases hq0 : Q g0.1 with
        | true =>
            rw [List.filter_cons_of_pos (by simpa using hq0),
              List.filter_cons_of_pos (by simpa using hq0), ih]
        | false =>
            rw [List.filter_cons_of_neg (by simp [hq0]),
              List.filter_cons_of_neg (by simp [hq0]), ih]

/-- Filtering a batch by a source-level predicate commutes with grouping by
source: the unresolvable groups simply disappear whole. -/
theorem groupByKey_filter_key {α : Type} (key : α → String)
    (Q : String → Bool) (l : List α) :
    groupByKey key (l.filter (fun x => Q (key x))) =
      (groupByKey key l).filter (fun g => Q g.1) := by
  suffices h : ∀ (l : List α) (acc : List (String × List α)),
      (l.filter (fun x => Q (key x))).foldl
          (fun acc x => insertGrouped key x acc)
          (acc.filter (fun g => Q g.1)) =
        (l.foldl (fun acc x => insertGrouped key x acc) acc).filter
          (fun g => Q g.1) by
    simpa [groupByKey] using h l []
  intro l
  induction l with
  | nil => intro acc; rfl
  | cons x xs ih =>
      intro acc
      cases hx : Q (key x) with
      | true =>
          rw [List.filter_cons_of_pos (p := fun x => Q (key x)) hx,
            List.foldl_cons, List.foldl_cons,
            ← filter_insertGrouped_pos key Q x hx, ih]
      | false =>
          rw [List.filter_cons_of_neg (p := fun x => Q (key x)) (by simp [hx]),
            List.foldl_cons, ← ih (insertGrouped key x acc),
            filter_insertGrouped_neg key Q x hx]

theorem map_fst_filter_key {β : Type} (Q : String → Bool)
    (l : List (String × β)) :
    (l.filter (fun g => Q g.1)).map Prod.fst =
      (l.map Prod.fst).filter Q := by
  induction l with
  | nil => rfl
  | cons g gs ih =>
      cases hq : Q g.1 with
      | true =>
          rw [List.filter_cons_of_pos (p := fun g : String × β => Q g.1) hq, List.map_cons,
            List.map_cons, List.filter_cons_of_pos (p := Q) hq, ih]
      | false =>
          rw [List.filter_cons_of_neg (p := fun g : String × β => Q g.1) (by simp [hq]),
            List.map_cons, List.filter_cons_of_neg (p := Q) (by simp [hq]), ih]

theorem filterMap_filter_of_none {γ : Type} (f : String → Option γ)
    (Q : String → Bool) (hf : ∀ u, Q u = false → f u = none)
    (l : List String) :
    (l.filter Q).filterMap f = l.filterMap f := by
  induction l with
  | nil => rfl
  | cons u us ih =>
      cases hq : Q u with
      | true =>
          rw [List.filter_cons_of_pos hq, List.filterMap_cons,
            List.filterMap_cons, ih]
      | false =>
          rw [List.filter_cons_of_neg (by simp [hq]), List.filterMap_cons,
            hf u hq, ih]

theorem filter_filter_filterMap_of_none {γ : Type} (f : String → Option γ)
    (R C : String → Bool) (hf : ∀ u, R u = false → f u = none)
    (l : List String) :
    ((l.filter R).filter C).filterMap f = (l.filter C).filterMap f := by
  induction l with
  | nil => rfl
  | cons u us ih =>
      cases hr : R u with
      | true =>
          rw [List.filter_cons_of_pos hr]
          cases hc : C u with
          | true =>
              rw [List.filter_cons_of_pos hc, List.filter_cons_of_pos hc,
                List.filterMap_cons, List.filterMap_cons, ih]
          | false =>
              rw [List.filter_cons_of_neg (by simp [hc]),
                List.filter_cons_of_neg (by simp [hc]), ih]
      | false =>
          cases hc : C u with
          | true =>
              rw [List.filter_cons_of_neg (by simp [hr]),
                List.filter_cons_of_pos hc, List.filterMap_cons, hf u hr, ih]
          | false =>
              rw [List.filter_cons_of_neg (by simp [hr]),
                List.filter_cons_of_neg (by simp [hc]), ih]

theorem find?_filter_key {β : Type} (Q : String → Bool)
    (l : List (String × β)) (k : String) (hk : Q k = true) :
    (l.filter (fun g => Q g.1)).find? (fun g => g.1 == k) =
      l.find? (fun g => g.1 == k) := by
  induction l with
  | nil => rfl
  | cons g gs ih =>
      cases heq : (g.1 == k) with
      | true =>
          have hgk : g.1 = k := by simpa using heq
          have hq : Q g.1 = true := by rw [hgk]; exact hk
          rw [List.filter_cons_of_pos (p := fun g : String × β => Q g.1) hq,
            List.find?_cons_of_pos (p := fun g : String × β => g.1 == k) _ heq, List.find?_cons_of_pos (p := fun g : String × β => g.1 == k) _ heq]
      | false =>
          cases hq : Q g.1 with
          | true =>
              rw [List.filter_cons_of_pos (p := fun g : String × β => Q g.1) hq,
                List.find?_cons_of_neg (p := fun g : String × β => g.1 == k) _ (by simp [heq]),
                List.find?_cons_of_neg (p := fun g : String × β => g.1 == k) _ (by simp [heq]), ih]
          | false =>
              rw [List.filter_cons_of_neg (p := fun g : String × β => Q g.1) (by simp [hq]),
                List.find?_cons_of_neg (p := fun g : String × β => g.1 == k) _ (by simp [heq]), ih]

/-- Every metadata object available after the lookup phase is its own
source's resolved metadata. -/
theorem metadataObjectsOf_spec {cache : String → Option ExportedMetadata}
    {store : String → Option ClientObj} {now : Nat}
    (hstore : StoreWF store) (hcache : CacheWF cache) (keys : List String) :
    ∀ md ∈ metadataObjectsOf cache store now keys,
      resolvedMeta cache store now md.client_urn = some md := by
  intro md hmd
  rcases List.mem_append.1 hmd with hmd | hmd
  · obtain ⟨u, hu, hcu⟩ := List.mem_filterMap.1 hmd
    have hurn : md.client_urn = u := hcache u md hcu
    rw [resolvedMeta, hurn, hcu]
  · obtain ⟨uo, huo, rfl⟩ := List.mem_map.1 hmd
    obtain ⟨u, hu, hg⟩ := List.mem_filterMap.1 huo
    cases hsu : store u with
    | none => rw [hsu] at hg; simp at hg
    | some c =>
        rw [hsu, Option.map_some'] at hg
        have huo2 : uo = (u, c) := (Option.some.inj hg).symm
        subst huo2
        have hurn : c.urn = u := hstore u c hsu
        have hcn : (cache u).isNone = true := (List.mem_filter.1 hu).2
        show resolvedMeta cache store now c.urn = some (GetMetadata now c)
        rw [resolvedMeta, hurn, Option.isNone_iff_eq_none.1 hcn, hsu,
          Option.map_some']

theorem resolvedMeta_isSome_resolvable
    {cache : String → Option ExportedMetadata}
    {store : String → Option ClientObj} {now : Nat} {u : String}
    (h : (resolvedMeta cache store now u).isSome = true) :
    Resolvable cache store u = true := by
  rw [resolvedMeta] at h
  rw [Resolvable]
  cases hc : cache u with
  | some m => simp [hc]
  | none =>
      rw [hc] at h
      cases hs : store u with
      | none => rw [hs] at h; simp at h
      | some c => simp [hs]

/-- Dropping the records with unresolvable sources does not change the
enriched batch the payload converters receive. -/
theorem grrMessageBatchData_filter (cache : String → Option ExportedMetadata)
    (store : String → Option ClientObj) (now : Nat)
    (hstore : StoreWF store) (hcache : CacheWF cache)
    (pairs : List (ExportedMetadata × GrrMessage P)) :
    grrMessageBatchData cache store now
        (pairs.filter (fun p => Resolvable cache store p.2.source)) =
      grrMessageBatchData cache store now pairs := by
  simp only [grrMessageBatchData, msgDictOf]
  rw [show groupByKey (fun p : ExportedMetadata × GrrMessage P => p.2.source)
        (pairs.filter (fun p => Resolvable cache store p.2.source)) =
      (groupByKey (fun p : ExportedMetadata × GrrMessage P => p.2.source)
          pairs).filter (fun g => Resolvable cache store g.1)
      from groupByKey_filter_key _ _ pairs]
  rw [map_fst_filter_key]
  have hmeta : metadataObjectsOf cache store now
      (((groupByKey (fun p : ExportedMetadata × GrrMessage P => p.2.source)
          pairs).map Prod.fst).filter (Resolvable cache store)) =
      metadataObjectsOf cache store now
        ((groupByKey (fun p : ExportedMetadata × GrrMessage P => p.2.source)
            pairs).map Prod.fst) := by
    unfold metadataObjectsOf multiOpen
    congr 1
    · exact filterMap_filter_of_none cache (Resolvable cache store)
        (fun u hu => by
          cases hcu : cache u with
          | none => rfl
          | some m => rw [Resolvable, hcu] at hu; simp at hu)
        _
    · congr 1
      exact filter_filter_filterMap_of_none _ (Resolvable cache store) _
        (fun u hu => by
          cases hsu : store u with
          | none => rfl
          | some c => rw [Resolvable, hsu] at hu; simp at hu)
        _
  rw [hmeta]
  congr 1
  apply List.map_congr_left
  intro md hmd
  have hres : Resolvable cache store md.client_urn = true :=
    resolvedMeta_isSome_resolvable
      (by rw [metadataObjectsOf_spec hstore hcache _ md hmd]; rfl)
  rw [find?_filter_key _ _ _ hres]

/-- C6: a record whose originating source is still absent from the per-run
cache after the batched lookup (neither cached nor openable in the store) is
silently dropped: removing every such record from the batch leaves
`BatchConvert`'s result unchanged — no output is emitted for it, no partial
metadata is attached — and the call returns `ok`, raising nothing.
`hstore`/`hcache` are the code's invariants (opened objects carry their urn;
the cache is keyed by `client_urn`), `huniform` its stated assumption that
payloads are of one type across the batch (src/lib/export.py:651-652). -/
theorem claim_c6_unresolvable_sources_silently_dropped
    (registry : String → List (Converter ExportedMetadata P O))
    (payloadTypeName : P → String)
    (cache : String → Option ExportedMetadata)
    (store : String → Option ClientObj) (now : Nat)
    (pairs : List (ExportedMetadata × GrrMessage P))
    (hstore : StoreWF store) (hcache : CacheWF cache)
    (huniform : ∀ p ∈ pairs, ∀ q ∈ pairs,
      payloadTypeName p.2.payload = payloadTypeName q.2.payload)
    (hne : pairs.filter (fun p => Resolvable cache store p.2.source) ≠ []) :
    (∃ outs, grrMessageBatchConvert registry payloadTypeName cache store now
        pairs = .ok outs) ∧
    grrMessageBatchConvert registry payloadTypeName cache store now pairs =
      grrMessageBatchConvert registry payloadTypeName cache store now
        (pairs.filter (fun p => Resolvable cache store p.2.source)) := by
  obtain ⟨q0, qrest, hq⟩ : ∃ q0 qrest,
      pairs.filter (fun p => Resolvable cache store p.2.source) =
        q0 :: qrest := by
    cases h : pairs.filter (fun p => Resolvable cache store p.2.source) with
    | nil => exact absurd h hne
    | cons a l => exact ⟨a, l, rfl⟩
  have hpairs_ne : pairs ≠ [] := by
    intro h
    rw [h] at hq
    simp at hq
  obtain ⟨p0, prest, hp⟩ : ∃ p0 prest, pairs = p0 :: prest := by
    cases h : pairs with
    | nil => exact absurd h hpairs_ne
    | cons a l => exact ⟨a, l, rfl⟩
  have hq0mem : q0 ∈ pairs :=
    List.mem_of_mem_filter (hq ▸ List.mem_cons_self q0 qrest)
  have htag : payloadTypeName p0.2.payload = payloadTypeName q0.2.payload :=
    huniform p0 (hp ▸ List.mem_cons_self p0 prest) q0 hq0mem
  have e1 : grrMessageBatchConvert registry payloadTypeName cache store now
      pairs = .ok (((registry (payloadTypeName p0.2.payload)).map
        (fun c => c.batchConvert
          (grrMessageBatchData cache store now pairs))).flatten) := by
    rw [hp]
    rfl
  have e2 : grrMessageBatchConvert registry payloadTypeName cache store now
      (pairs.filter (fun p => Resolvable cache store p.2.source)) =
      .ok (((registry (payloadTypeName q0.2.payload)).map
        (fun c => c.batchConvert (grrMessageBatchData cache store now
          (pairs.filter
            (fun p => Resolvable cache store p.2.source))))).flatten) := by
    rw [hq]
    rfl
  refine ⟨⟨_, e1⟩, ?_⟩
  rw [e1, e2, htag,
    grrMessageBatchData_filter cache store now hstore hcache pairs]

/-- C7: every enriched record handed to the payload converters carries a
metadata context equal to its source's resolved metadata (the cache entry,
or the freshly fetched client metadata) in every field except `timestamp`
and `source_urn`, which are overridden from the record's own provided
metadata; the payload attached is the record's own. -/
theorem claim_c7_metadata_cloned_with_overrides
    (cache : String → Option ExportedMetadata)
    (store : String → Option ClientObj) (now : Nat)
    (pairs : List (ExportedMetadata × GrrMessage P))
    (hstore : StoreWF store) (hcache : CacheWF cache) :
    ∀ x ∈ grrMessageBatchData cache store now pairs,
      ∃ p ∈ pairs, ∃ md,
        resolvedMeta cache store now p.2.source = some md ∧
        x = ({ md with source_urn := p.1.source_urn,
                       timestamp := p.1.timestamp }, p.2.payload) := by
  intro x hx
  simp only [grrMessageBatchData] at hx
  rw [List.mem_flatten] at hx
  obtain ⟨l, hl, hxl⟩ := hx
  rw [List.mem_map] at hl
  obtain ⟨md, hmd, rfl⟩ := hl
  cases hfind : (msgDictOf pairs).find? (fun g => g.1 == md.client_urn) with
  | none =>
      rw [hfind] at hxl
      simp at hxl
  | some g =>
      rw [hfind, Option.map_some'] at hxl
      simp only [] at hxl
      have hgmem : g ∈ msgDictOf pairs := List.mem_of_find?_eq_some hfind
      have hkey : g.1 = md.client_urn := by
        have := List.find?_some hfind
        simpa using this
      unfold enrichGroup at hxl
      obtain ⟨p, hp, hxp⟩ := List.mem_map.1 hxl
      refine ⟨p, groupByKey_mem hgmem hp, md, ?_, hxp.symm⟩
      have hsrc : p.2.source = g.1 :=
        (groupByKey_wf (fun p : ExportedMetadata × GrrMessage P => p.2.source)
          pairs g hgmem).2 p hp
      rw [hsrc, hkey]
      exact metadataObjectsOf_spec hstore hcache _ md hmd

/-- The concrete store of the C6/C7 witnesses: one openable client. -/
def witnessStore : String → Option ClientObj :=
  fun u => if u == "aff4:/C.1" then some { urn := "aff4:/C.1" } else none

theorem witnessStore_wf : StoreWF witnessStore := by
  intro u c h
  by_cases hu : u = "aff4:/C.1"
  · subst hu
    rw [witnessStore, if_pos (by decide)] at h
    rw [← Option.some.inj h]
  · rw [witnessStore, if_neg (by simpa using hu)] at h
    exact absurd h (by simp)

/-- The concrete batch of the C6 witness: one record from the openable
client, one from an unknown client. -/
def witnessPairs : List (ExportedMetadata × GrrMessage Unit) :=
  [({}, ⟨"aff4:/C.1", ()⟩), ({}, ⟨"aff4:/C.9", ()⟩)]

theorem claim_c6_unresolvable_sources_silently_dropped_witness :
    (StoreWF witnessStore ∧
      CacheWF (fun _ => none) ∧
      witnessPairs.filter
        (fun p => Resolvable (fun _ => none) witnessStore p.2.source) ≠ []) ∧
    ((∃ outs, grrMessageBatchConvert
        (fun _ => ([] : List (Converter ExportedMetadata Unit Unit)))
        (fun _ => "StatEntry") (fun _ => none) witnessStore 0 witnessPairs =
          .ok outs) ∧
      grrMessageBatchConvert
          (fun _ => ([] : List (Converter ExportedMetadata Unit Unit)))
          (fun _ => "StatEntry") (fun _ => none) witnessStore 0 witnessPairs =
        grrMessageBatchConvert (fun _ => [])
          (fun _ => "StatEntry") (fun _ => none) witnessStore 0
          (witnessPairs.filter
            (fun p => Resolvable (fun _ => none) witnessStore p.2.source))) :=
  ⟨⟨witnessStore_wf, fun u m h => absurd h (by simp),
      by
        rw [show witnessPairs.filter
            (fun p => Resolvable (fun _ => none) witnessStore p.2.source) =
          [({}, ⟨"aff4:/C.1", ()⟩)] from rfl]
        exact List.cons_ne_nil _ _⟩,
    claim_c6_unresolvable_sources_silently_dropped
      (fun _ => []) (fun _ => "StatEntry") (fun _ => none) witnessStore 0
      witnessPairs witnessStore_wf (fun u m h => absurd h (by simp))
      (fun p _ q _ => rfl)
      (by
        rw [show witnessPairs.filter
            (fun p => Resolvable (fun _ => none) witnessStore p.2.source) =
          [({}, ⟨"aff4:/C.1", ()⟩)] from rfl]
        exact List.cons_ne_nil _ _)⟩

/-- The concrete cache of the C7 witness. -/
def witnessCache : String → Option ExportedMetadata :=
  fun u => if u == "aff4:/C.1"
           then some { client_urn := "aff4:/C.1", hostname := "host1" }
           else none

theorem witnessCache_wf : CacheWF witnessCache := by
  intro u m h
  by_cases hu : u = "aff4:/C.1"
  · subst hu
    rw [witnessCache, if_pos (by decide)] at h
    rw [← Option.some.inj h]
  · rw [witnessCache, if_neg (by simpa using hu)] at h
    exact absurd h (by simp)

theorem claim_c7_metadata_cloned_with_overrides_witness :
    (StoreWF witnessStore ∧ CacheWF witnessCache ∧
      ({ client_urn := "aff4:/C.1", hostname := "host1", timestamp := 5,
         source_urn := "aff4:/flows/F.1" : ExportedMetadata}, ()) ∈
        grrMessageBatchData witnessCache witnessStore 0
          [({ timestamp := 5, source_urn := "aff4:/flows/F.1" },
            ⟨"aff4:/C.1", ()⟩)]) ∧
    (∃ p ∈ [(({ timestamp := 5, source_urn := "aff4:/flows/F.1" } :
          ExportedMetadata), (⟨"aff4:/C.1", ()⟩ : GrrMessage Unit))],
      ∃ md, resolvedMeta witnessCache witnessStore 0 p.2.source = some md ∧
        ({ client_urn := "aff4:/C.1", hostname := "host1", timestamp := 5,
           source_urn := "aff4:/flows/F.1" : ExportedMetadata}, ()) =
          ({ md with source_urn := p.1.source_urn,
                     timestamp := p.1.timestamp }, p.2.payload)) :=
  ⟨⟨witnessStore_wf, witnessCache_wf, by decide⟩,
    claim_c7_metadata_cloned_with_overrides witnessCache witnessStore 0
      [({ timestamp := 5, source_urn := "aff4:/flows/F.1" },
        ⟨"aff4:/C.1", ()⟩)]
      witnessStore_wf witnessCache_wf
      ({ client_urn := "aff4:/C.1", hostname := "host1", timestamp := 5,
         source_urn := "aff4:/flows/F.1" }, ())
      (by decide)⟩

end GrrMessageConverter

end GrrExport
